import Mathlib

/-!
Shallow embedding of the zero-com build-time transformer (`src/lib/common.ts`).

The transformer works on ts-morph syntax trees.  The embedding represents a
parsed source file by the data the transformer actually inspects: its variable
declarations, its import declarations, and the list of call-expression
descendants in traversal (pre-order) order.  A call expression carries the
printed text of its callee, the kind of its callee node, the outcome of
ts-morph symbol resolution for the callee (the declarations of its symbol,
each with the module specifier of its enclosing import declaration, if any),
the printed text and kind of each argument, and its start / end offsets in the
original text.  Pure string-building and map logic is translated directly;
the ts-morph parser, the Node filesystem (modelled as an explicit list of
existing paths) and Node's path helpers are the only external collaborators,
and the latter are modelled by small Lean functions noted as such.
-/

namespace ZeroCom

/-- Kind of the callee expression of a call, per `ts-morph` `SyntaxKind`. -/
inductive CalleeKind
  | identifier
  | propertyAccess
  | otherCallee
deriving DecidableEq

/-- Kind of a declaration of a resolved symbol, per `ts.SyntaxKind`. -/
inductive DeclKind
  | importSpecifier
  | namespaceImport
  | otherDecl
deriving DecidableEq

/-- Kind of an argument node: the scanner only distinguishes arrow functions;
`functionExpression` stands for an anonymous `function () { ... }` literal. -/
inductive ArgKind
  | arrowFunction
  | functionExpression
  | otherArg
deriving DecidableEq

/-- One declaration of the callee's resolved symbol: its node kind and the
module specifier of its first ancestor import declaration (if any), as read by
`isFromLibrary` in `src/lib/common.ts`. -/
structure SymbolDecl where
  kind : DeclKind
  moduleSpecifier : Option String
deriving DecidableEq

/-- An argument of a call expression: its printed source text and node kind. -/
structure CallArg where
  text : String
  kind : ArgKind
deriving DecidableEq

/-- A call expression as the transformer sees it.  `symbolDecls` is the result
of `getExpression().getSymbol()?.getDeclarations()` (`none` when the symbol is
unresolved).  `start`/`stop` are `getStart()`/`getEnd()` offsets. -/
structure CallExpr where
  calleeKind : CalleeKind
  calleeText : String
  calleeName : String
  symbolDecls : Option (List SymbolDecl)
  args : List CallArg
  start : Nat
  stop : Nat
deriving DecidableEq

/-- Initializer of a variable declaration: a call expression or anything else. -/
inductive InitExpr
  | callInit (c : CallExpr)
  | otherInit
deriving DecidableEq

/-- A top-level variable declaration: export flag, binding name, start offset
of the declaration, and its initializer (if any). -/
structure VariableDecl where
  isExported : Bool
  name : String
  start : Nat
  initializer : Option InitExpr
deriving DecidableEq

/-- A named import specifier: imported name and alias text (if aliased). -/
structure NamedImport where
  name : String
  aliasText : Option String
deriving DecidableEq

/-- An import declaration: module specifier, named imports, namespace import. -/
structure ImportDecl where
  moduleSpecifier : String
  namedImports : List NamedImport
  namespaceImport : Option String
deriving DecidableEq

/-- A parsed source file, restricted to the data the transformer reads. -/
structure SourceFile where
  filePath : String
  fullText : String
  importDecls : List ImportDecl
  varDecls : List VariableDecl
  callExprs : List CallExpr
deriving DecidableEq

/-- `Replacement` from `src/lib/common.ts`: a half-open range `[start, stop)`
of the original text and the content replacing it (`end` is a Lean keyword,
hence `stop`). -/
structure Replacement where
  start : Nat
  stop : Nat
  content : String
deriving DecidableEq

/-- `ServerFuncInfo` from `src/lib/common.ts`. -/
structure ServerFuncInfo where
  funcId : String
  filePath : String
  exportName : String
deriving DecidableEq

/-- A JS `Map` is modelled as an insertion-ordered association list with
unique keys; `mapGet`/`mapSet`/`mapDelete` mirror `get`/`set`/`delete`. -/
abbrev FileRegistry := List (String × ServerFuncInfo)

abbrev ServerFuncRegistry := List (String × FileRegistry)

def mapGet {α : Type} (m : List (String × α)) (k : String) : Option α :=
  match m with
  | [] => none
  | (k', v) :: rest => if k' = k then some v else mapGet rest k

def mapSet {α : Type} (m : List (String × α)) (k : String) (v : α) : List (String × α) :=
  match m with
  | [] => [(k, v)]
  | (k', v') :: rest => if k' = k then (k, v) :: rest else (k', v') :: mapSet rest k v

def mapDelete {α : Type} (m : List (String × α)) (k : String) : List (String × α) :=
  m.filter (fun e => e.1 != k)

-- Constants from `src/lib/common.ts`.

def ZERO_COM_CLIENT_CALL : String := "ZERO_COM_CLIENT_CALL"

def ZERO_COM_SERVER_REGISTRY : String := "ZERO_COM_SERVER_REGISTRY"

def ZERO_COM_CONTEXT_STORAGE : String := "ZERO_COM_CONTEXT_STORAGE"

def SERVER_FUNCTION_WRAPPER_NAME : String := "func"

def HANDLE_NAME : String := "handle"

def CALL_NAME : String := "call"

def LIBRARY_NAME : String := "zero-com"

def FILE_EXTENSIONS : List String := ["", ".ts", ".tsx", ".js", ".jsx", ".mjs"]

/-- `formatFuncIdName` from `src/lib/common.ts`. -/
def formatFuncIdName (funcName : String) (filePath : String) (line : Nat) : String :=
  funcName ++ "@" ++ filePath ++ ":" ++ toString line

/-- Models JS `Array.prototype.join(sep)`. -/
def joinWith (sep : String) : List String → String
  | [] => ""
  | [x] => x
  | x :: y :: rest => x ++ sep ++ joinWith sep (y :: rest)

/-- Models JS `String.prototype.startsWith`. -/
def strStartsWith (s : String) (pre : String) : Bool :=
  pre.data.isPrefixOf s.data

/-- Models JS `String.prototype.endsWith`. -/
def strEndsWith (s : String) (suf : String) : Bool :=
  suf.data.reverse.isPrefixOf s.data.reverse

def splitSlashAux : List Char → List Char → List String
  | [], acc => [String.mk acc.reverse]
  | c :: cs, acc =>
    if c = '/' then String.mk acc.reverse :: splitSlashAux cs []
    else splitSlashAux cs (c :: acc)

/-- Splits a string at `/` separators (as `String.splitOn "/"`). -/
def splitSlash (s : String) : List String :=
  splitSlashAux s.data []

/-- `isFromLibrary`: the callee's symbol has a declaration that is an import
specifier or namespace import whose import declaration names the library. -/
def isFromLibrary (callExpr : CallExpr) (libraryName : String) : Bool :=
  match callExpr.symbolDecls with
  | none => false
  | some decls => decls.any (fun d =>
      (d.kind == DeclKind.importSpecifier || d.kind == DeclKind.namespaceImport) &&
      d.moduleSpecifier == some libraryName)

/-- `getCalleeName`: identifier text, or the `.name` of a property access. -/
def getCalleeName (callExpr : CallExpr) : String :=
  match callExpr.calleeKind with
  | CalleeKind.identifier => callExpr.calleeText
  | CalleeKind.propertyAccess => callExpr.calleeName
  | CalleeKind.otherCallee => ""

/-- `getCalleeFullName`: identifier text, or the full printed text of a
property access. -/
def getCalleeFullName (callExpr : CallExpr) : String :=
  match callExpr.calleeKind with
  | CalleeKind.identifier => callExpr.calleeText
  | CalleeKind.propertyAccess => callExpr.calleeText
  | CalleeKind.otherCallee => ""

/-- Models Node `path.dirname` for slash-separated paths. -/
def dirname (p : String) : String :=
  let parts := splitSlash p
  if parts.length ≤ 1 then "." else
    let d := joinWith "/" parts.dropLast
    if d = "" then "/" else d

def normalizeSegs (segs : List String) : List String :=
  segs.foldl (fun acc s =>
    if s = "" || s = "." then acc
    else if s = ".." then acc.dropLast
    else acc ++ [s]) []

/-- Models Node `path.resolve(dir, spec)` for an absolute `dir` and a
relative `spec`. -/
def pathResolve (dir : String) (spec : String) : String :=
  "/" ++ joinWith "/" (normalizeSegs (splitSlash (dir ++ "/" ++ spec)))

/-- Models Node `path.relative(contextDir, filePath)` for a file lying under
the context directory. -/
def pathRelative (contextDir : String) (filePath : String) : String :=
  if (contextDir ++ "/").data.isPrefixOf filePath.data then
    String.mk (filePath.data.drop (contextDir.length + 1))
  else filePath

/-- `resolveFilePath`: the filesystem is modelled as the list of existing
paths; tries each extension, then an `index.*` fallback, else `""`. -/
def resolveFilePath (fsFiles : List String) (basePath : String) : String :=
  match FILE_EXTENSIONS.find? (fun ext => fsFiles.contains (basePath ++ ext)) with
  | some ext => basePath ++ ext
  | none =>
    match (FILE_EXTENSIONS.drop 1).find? (fun ext => fsFiles.contains (basePath ++ "/index" ++ ext)) with
    | some ext => basePath ++ "/index" ++ ext
    | none => ""

/-- One-based line number of a character offset, modelling ts-morph
`getStartLineNumber` on the file's text. -/
def lineOfOffset (text : String) (offset : Nat) : Nat :=
  1 + (text.toList.take offset).count '\n'

/-- The marker-name test of `scanFileForServerFunctions`:
`funcExprText === 'func' || funcExprText.endsWith('.func')`. -/
def markerNameMatches (t : String) : Bool :=
  t == SERVER_FUNCTION_WRAPPER_NAME || strEndsWith t ("." ++ SERVER_FUNCTION_WRAPPER_NAME)

/-- The per-declaration filter of `scanFileForServerFunctions`: exported, with
a call initializer resolved to the library, marker-named callee, and exactly
one argument that is an arrow function. -/
def declMatches (decl : VariableDecl) : Bool :=
  decl.isExported &&
  (match decl.initializer with
   | some (InitExpr.callInit c) =>
     isFromLibrary c LIBRARY_NAME &&
     markerNameMatches c.calleeText &&
     (match c.args with
      | [a] => a.kind == ArgKind.arrowFunction
      | _ => false)
   | _ => false)

/-- The `ServerFuncInfo` recorded for a matching declaration. -/
def mkServerFuncInfo (sf : SourceFile) (contextDir : String) (decl : VariableDecl) : ServerFuncInfo :=
  { funcId := formatFuncIdName decl.name (pathRelative contextDir sf.filePath) (lineOfOffset sf.fullText decl.start)
    filePath := sf.filePath
    exportName := decl.name }

/-- One loop iteration of `scanFileForServerFunctions`. -/
def scanStep (sf : SourceFile) (contextDir : String) (acc : FileRegistry) (decl : VariableDecl) : FileRegistry :=
  if declMatches decl then mapSet acc decl.name (mkServerFuncInfo sf contextDir decl) else acc

/-- The file registry built by `scanFileForServerFunctions` (the enclosing
`registry.set` happens only when this map is non-empty). -/
def scanFileRegistry (sf : SourceFile) (contextDir : String) : FileRegistry :=
  sf.varDecls.foldl (scanStep sf contextDir) []

/-- `namedImport.getAliasNode()?.getText() || namedImport.getName()` with JS
falsiness of the empty string. -/
def aliasOrName (ni : NamedImport) : String :=
  match ni.aliasText with
  | some a => if a = "" then ni.name else a
  | none => ni.name

/-- `getImportedServerFunctions` from `src/lib/common.ts`. -/
def getImportedServerFunctions (fsFiles : List String) (sf : SourceFile) (registry : ServerFuncRegistry) : List (String × ServerFuncInfo) :=
  sf.importDecls.foldl (fun importedFuncs importDecl =>
    if !(strStartsWith importDecl.moduleSpecifier ".") then importedFuncs
    else
      let resolvedPath := resolveFilePath fsFiles (pathResolve (dirname sf.filePath) importDecl.moduleSpecifier)
      match mapGet registry resolvedPath with
      | none => importedFuncs
      | some fileRegistry =>
        let afterNamed := importDecl.namedImports.foldl (fun acc ni =>
          match mapGet fileRegistry ni.name with
          | some info => mapSet acc (aliasOrName ni) info
          | none => acc) importedFuncs
        match importDecl.namespaceImport with
        | some ns => fileRegistry.foldl (fun acc e => mapSet acc (ns ++ "." ++ e.1) e.2) afterNamed
        | none => afterNamed) []

/-- Content template of a rewritten call site. -/
def dispatchContent (funcId : String) (argsText : String) : String :=
  "globalThis." ++ ZERO_COM_CLIENT_CALL ++ "('" ++ funcId ++ "', [" ++ argsText ++ "])"

/-- The argument list text: argument source texts joined with `', '`. -/
def argsTextOf (c : CallExpr) : String :=
  joinWith ", " (c.args.map CallArg.text)

/-- The per-call step of `collectCallSiteReplacements`. -/
def replForCall (importedFuncs : List (String × ServerFuncInfo)) (c : CallExpr) : Option Replacement :=
  match mapGet importedFuncs (getCalleeFullName c) with
  | none => none
  | some info => some { start := c.start, stop := c.stop, content := dispatchContent info.funcId (argsTextOf c) }

/-- `collectCallSiteReplacements` from `src/lib/common.ts`. -/
def collectCallSiteReplacements (sf : SourceFile) (importedFuncs : List (String × ServerFuncInfo)) : List Replacement :=
  if importedFuncs.isEmpty then [] else sf.callExprs.filterMap (replForCall importedFuncs)

/-- Content template of an inlined `handle(...)` call. -/
def handleContent (funcId : String) (ctx : String) (argsArray : String) : String :=
  "globalThis." ++ ZERO_COM_CONTEXT_STORAGE ++ ".run(" ++ ctx ++ ", () => globalThis." ++
    ZERO_COM_SERVER_REGISTRY ++ "[" ++ funcId ++ "](..." ++ argsArray ++ "))"

/-- The per-call step of `collectHandleCallReplacements`. -/
def replForHandle (c : CallExpr) : Option Replacement :=
  if isFromLibrary c LIBRARY_NAME && getCalleeName c == HANDLE_NAME then
    match c.args with
    | a0 :: a1 :: a2 :: _ => some { start := c.start, stop := c.stop, content := handleContent a0.text a1.text a2.text }
    | _ => none
  else none

/-- `collectHandleCallReplacements` from `src/lib/common.ts`. -/
def collectHandleCallReplacements (sf : SourceFile) : List Replacement :=
  sf.callExprs.filterMap replForHandle

/-- The per-call step of `collectSendCallReplacements`. -/
def replForSend (c : CallExpr) : Option Replacement :=
  if isFromLibrary c LIBRARY_NAME && getCalleeName c == CALL_NAME then
    match c.args with
    | a0 :: _ => some { start := c.start, stop := c.stop, content := "globalThis." ++ ZERO_COM_CLIENT_CALL ++ " = " ++ a0.text }
    | _ => none
  else none

/-- `collectSendCallReplacements` from `src/lib/common.ts`. -/
def collectSendCallReplacements (sf : SourceFile) : List Replacement :=
  sf.callExprs.filterMap replForSend

/-- The per-call step of `collectFuncCallReplacements`. -/
def replForFunc (c : CallExpr) : Option Replacement :=
  if isFromLibrary c LIBRARY_NAME && getCalleeName c == SERVER_FUNCTION_WRAPPER_NAME then
    match c.args with
    | [a0] => some { start := c.start, stop := c.stop, content := a0.text }
    | _ => none
  else none

/-- `collectFuncCallReplacements` from `src/lib/common.ts`. -/
def collectFuncCallReplacements (sf : SourceFile) : List Replacement :=
  sf.callExprs.filterMap replForFunc

def insertDescByStart (r : Replacement) : List Replacement → List Replacement
  | [] => [r]
  | x :: xs => if r.start > x.start then r :: x :: xs else x :: insertDescByStart r xs

/-- Stable sort by start offset descending, modelling
`[...replacements].sort((a, b) => b.start - a.start)`. -/
def sortDescByStart (rs : List Replacement) : List Replacement :=
  rs.foldl (fun acc r => insertDescByStart r acc) []

/-- One MagicString `overwrite(start, end, content)` against original
coordinates; because replacements are applied in descending start order,
splicing the evolving text at the original offsets is exact whenever the
ranges are non-overlapping. -/
def spliceReplacement (source : String) (r : Replacement) : String :=
  String.mk (source.toList.take r.start ++ r.content.toList ++ source.toList.drop r.stop)

/-- `applyReplacementsWithMap` from `src/lib/common.ts`; source-map output is
omitted. -/
def applyReplacementsWithMap (source : String) (replacements : List Replacement) : String :=
  (sortDescByStart replacements).foldl spliceReplacement source

/-- One registry assignment emitted by `appendRegistryCode`. -/
def registrationLine (info : ServerFuncInfo) : String :=
  "globalThis." ++ ZERO_COM_SERVER_REGISTRY ++ "['" ++ info.funcId ++ "'] = " ++ info.exportName ++ ";"

/-- The idempotent registry-creation guard emitted by `appendRegistryCode`. -/
def registryGuardLine : String :=
  "if (!globalThis." ++ ZERO_COM_SERVER_REGISTRY ++ ") globalThis." ++ ZERO_COM_SERVER_REGISTRY ++ " = Object.create(null);"

/-- `appendRegistryCode` from `src/lib/common.ts`, applied to the current code
text (`sourceFile.getFullText()`): the code, the creation guard, and one
registration per entry joined by newlines. -/
def appendRegistryCode (code : String) (fileRegistry : FileRegistry) : String :=
  code ++ "\n" ++ registryGuardLine ++ "\n" ++
    joinWith "\n" (fileRegistry.map (fun e => registrationLine e.2))

/-- `TransformOptions` with its `development = true` default. -/
structure TransformOptions where
  development : Option Bool := none
deriving DecidableEq

structure TransformResult where
  content : String
  transformed : Bool
deriving DecidableEq

/-- `fileRegistry.forEach((_, name) => importedFuncs.delete(name))`. -/
def deleteAll (keys : List String) (m : List (String × ServerFuncInfo)) : List (String × ServerFuncInfo) :=
  keys.foldl (fun acc k => mapDelete acc k) m

/-- The imported-functions map actually used for call-site rewriting inside
`transformSourceFile`: local registry names are removed for a server-function
file. -/
def effectiveImportedFuncs (fsFiles : List String) (sf : SourceFile) (registry : ServerFuncRegistry) : List (String × ServerFuncInfo) :=
  let importedFuncs := getImportedServerFunctions fsFiles sf registry
  match mapGet registry sf.filePath with
  | some fileRegistry =>
    if fileRegistry.isEmpty then importedFuncs
    else deleteAll (fileRegistry.map Prod.fst) importedFuncs
  | none => importedFuncs

/-- The replacement list collected by `transformSourceFile`, in push order:
call-site rewrites, then (production only) handle/send inlining, then
(production, server-function file only) func-wrapper stripping. -/
def transformReplacements (fsFiles : List String) (sf : SourceFile) (registry : ServerFuncRegistry) (development : Bool) : List Replacement :=
  let isServerFunctionFile :=
    match mapGet registry sf.filePath with
    | some fr => !fr.isEmpty
    | none => false
  collectCallSiteReplacements sf (effectiveImportedFuncs fsFiles sf registry)
    ++ (if !development then collectHandleCallReplacements sf ++ collectSendCallReplacements sf else [])
    ++ (if isServerFunctionFile && !development then collectFuncCallReplacements sf else [])

/-- `transformSourceFile` from `src/lib/common.ts`; the parse step is
precomposed (the `content` argument is `sf.fullText`). -/
def transformSourceFile (fsFiles : List String) (sf : SourceFile) (registry : ServerFuncRegistry) (options : TransformOptions) : TransformResult :=
  let development := options.development.getD true
  let replacements := transformReplacements fsFiles sf registry development
  match mapGet registry sf.filePath with
  | some fileRegistry =>
    if fileRegistry.isEmpty then
      if replacements.isEmpty then { content := sf.fullText, transformed := false }
      else { content := applyReplacementsWithMap sf.fullText replacements, transformed := true }
    else
      if replacements.isEmpty then
        { content := appendRegistryCode sf.fullText fileRegistry, transformed := true }
      else
        { content := appendRegistryCode (applyReplacementsWithMap sf.fullText replacements) fileRegistry, transformed := true }
  | none =>
    if replacements.isEmpty then { content := sf.fullText, transformed := false }
    else { content := applyReplacementsWithMap sf.fullText replacements, transformed := true }

/-! ### Association-list (JS `Map`) lemmas -/

theorem mapGet_nil {α : Type} (k : String) : mapGet ([] : List (String × α)) k = none := rfl

theorem mapGet_cons {α : Type} (k0 : String) (v0 : α) (rest : List (String × α)) (k : String) :
    mapGet ((k0, v0) :: rest) k = if k0 = k then some v0 else mapGet rest k := rfl

theorem mapSet_nil {α : Type} (k : String) (v : α) : mapSet ([] : List (String × α)) k v = [(k, v)] := rfl

theorem mapSet_cons {α : Type} (k0 : String) (v0 : α) (rest : List (String × α)) (k : String) (v : α) :
    mapSet ((k0, v0) :: rest) k v =
      if k0 = k then (k, v) :: rest else (k0, v0) :: mapSet rest k v := rfl

theorem mapDelete_cons {α : Type} (k0 : String) (v0 : α) (rest : List (String × α)) (k : String) :
    mapDelete ((k0, v0) :: rest) k =
      if k0 = k then mapDelete rest k else (k0, v0) :: mapDelete rest k := by
  by_cases h : k0 = k
  · have hb : ((k0, v0).1 != k) = false := by simpa using h
    simp [mapDelete, List.filter_cons, hb, h]
  · have hb : ((k0, v0).1 != k) = true := by simpa using h
    simp [mapDelete, List.filter_cons, hb, h]

theorem mapGet_mapSet {α : Type} (m : List (String × α)) (k k' : String) (v : α) :
    mapGet (mapSet m k v) k' = if k = k' then some v else mapGet m k' := by
  induction m with
  | nil => rw [mapSet_nil, mapGet_cons, mapGet_nil]
  | cons e rest ih =>
    obtain ⟨k0, v0⟩ := e
    rw [mapSet_cons]
    by_cases h : k0 = k
    · rw [if_pos h, mapGet_cons, mapGet_cons]
      by_cases h' : k = k'
      · rw [if_pos h', if_pos h']
      · rw [if_neg h', if_neg h', if_neg (fun hh => h' (h.symm.trans hh))]
    · rw [if_neg h, mapGet_cons, mapGet_cons, ih]
      by_cases h' : k0 = k'
      · have hne : ¬ k = k' := fun hh => h (hh ▸ h')
        rw [if_pos h', if_pos h', if_neg hne]
      · rw [if_neg h', if_neg h']

theorem mem_mapSet {α : Type} (m : List (String × α)) (k : String) (v : α) (a : String × α)
    (h : a ∈ mapSet m k v) : a = (k, v) ∨ a ∈ m := by
  induction m with
  | nil =>
    rw [mapSet_nil] at h
    exact Or.inl (List.mem_singleton.mp h)
  | cons e rest ih =>
    obtain ⟨k0, v0⟩ := e
    rw [mapSet_cons] at h
    by_cases hk : k0 = k
    · rw [if_pos hk] at h
      rcases List.mem_cons.mp h with h | h
      · exact Or.inl h
      · exact Or.inr (List.mem_cons_of_mem _ h)
    · rw [if_neg hk] at h
      rcases List.mem_cons.mp h with h | h
      · exact Or.inr (List.mem_cons.mpr (Or.inl h))
      · rcases ih h with h' | h'
        · exact Or.inl h'
        · exact Or.inr (List.mem_cons_of_mem _ h')

theorem mapGet_mem {α : Type} (m : List (String × α)) (k : String) (v : α)
    (h : mapGet m k = some v) : (k, v) ∈ m := by
  induction m with
  | nil => rw [mapGet_nil] at h; cases h
  | cons e rest ih =>
    obtain ⟨k0, v0⟩ := e
    rw [mapGet_cons] at h
    by_cases hk : k0 = k
    · rw [if_pos hk] at h
      injection h with h2
      subst hk; subst h2
      exact List.mem_cons_self _ _
    · rw [if_neg hk] at h
      exact List.mem_cons_of_mem _ (ih h)

theorem mapGet_mapDelete_self {α : Type} (m : List (String × α)) (k : String) :
    mapGet (mapDelete m k) k = none := by
  induction m with
  | nil => rfl
  | cons e rest ih =>
    obtain ⟨k0, v0⟩ := e
    rw [mapDelete_cons]
    by_cases hk : k0 = k
    · rw [if_pos hk]; exact ih
    · rw [if_neg hk, mapGet_cons, if_neg hk]; exact ih

theorem mapGet_mapDelete_ne {α : Type} (m : List (String × α)) (k k' : String) (h : k ≠ k') :
    mapGet (mapDelete m k') k = mapGet m k := by
  induction m with
  | nil => rfl
  | cons e rest ih =>
    obtain ⟨k0, v0⟩ := e
    rw [mapDelete_cons, mapGet_cons]
    by_cases hk : k0 = k'
    · have hne : ¬ k0 = k := fun hh => h (hh.symm.trans hk)
      rw [if_pos hk, if_neg hne]
      exact ih
    · rw [if_neg hk, mapGet_cons]
      by_cases hk2 : k0 = k
      · rw [if_pos hk2, if_pos hk2]
      · rw [if_neg hk2, if_neg hk2]
        exact ih

theorem deleteAll_cons (j : String) (js : List String) (m : List (String × ServerFuncInfo)) :
    deleteAll (j :: js) m = deleteAll js (mapDelete m j) := rfl

theorem mapGet_deleteAll_none (keys : List String) (m : List (String × ServerFuncInfo)) (k : String)
    (h : mapGet m k = none) : mapGet (deleteAll keys m) k = none := by
  induction keys generalizing m with
  | nil => exact h
  | cons j js ih =>
    rw [deleteAll_cons]
    apply ih
    by_cases hj : k = j
    · subst hj; exact mapGet_mapDelete_self m k
    · rw [mapGet_mapDelete_ne m k j hj]; exact h

theorem mapGet_deleteAll_of_mem (keys : List String) (m : List (String × ServerFuncInfo)) (k : String)
    (h : k ∈ keys) : mapGet (deleteAll keys m) k = none := by
  induction keys generalizing m with
  | nil => cases h
  | cons j js ih =>
    rw [deleteAll_cons]
    rcases List.mem_cons.mp h with h' | h'
    · subst h'
      exact mapGet_deleteAll_none js _ k (mapGet_mapDelete_self m k)
    · exact ih _ h'

theorem mapGet_deleteAll_some (keys : List String) (m : List (String × ServerFuncInfo)) (k : String)
    (v : ServerFuncInfo) (h : mapGet (deleteAll keys m) k = some v) : mapGet m k = some v := by
  induction keys generalizing m with
  | nil => exact h
  | cons j js ih =>
    rw [deleteAll_cons] at h
    have h2 := ih _ h
    by_cases hj : k = j
    · subst hj; rw [mapGet_mapDelete_self m k] at h2; cases h2
    · rwa [mapGet_mapDelete_ne m k j hj] at h2

/-! ### `collectCallSiteReplacements` as a filterMap -/

theorem collectCallSiteReplacements_eq (sf : SourceFile) (m : List (String × ServerFuncInfo)) :
    collectCallSiteReplacements sf m = sf.callExprs.filterMap (replForCall m) := by
  unfold collectCallSiteReplacements
  by_cases h : m.isEmpty
  · rw [if_pos h]
    have hm : m = [] := List.isEmpty_iff.mp h
    subst hm
    symm
    rw [List.filterMap_eq_nil_iff]
    intro c _
    rfl
  · rw [if_neg h]

/-! ### Provenance of values of the imported-functions map -/

/-- `info` is a value stored in some file entry of the registry. -/
def InRegistry (registry : ServerFuncRegistry) (info : ServerFuncInfo) : Prop :=
  ∃ p fr, mapGet registry p = some fr ∧ info ∈ fr.map Prod.snd

/-- All values of a map are registry values. -/
def GoodMap (registry : ServerFuncRegistry) (m : List (String × ServerFuncInfo)) : Prop :=
  ∀ k info, mapGet m k = some info → InRegistry registry info

theorem goodMap_nil (registry : ServerFuncRegistry) : GoodMap registry [] := by
  intro k info h
  rw [mapGet_nil] at h
  cases h

theorem goodMap_mapSet (registry : ServerFuncRegistry) (m : List (String × ServerFuncInfo))
    (k : String) (v : ServerFuncInfo) (hm : GoodMap registry m) (hv : InRegistry registry v) :
    GoodMap registry (mapSet m k v) := by
  intro k' info h
  rw [mapGet_mapSet] at h
  by_cases hk : k = k'
  · rw [if_pos hk] at h
    injection h with h2
    exact h2 ▸ hv
  · rw [if_neg hk] at h
    exact hm k' info h

theorem goodMap_namedFold (registry : ServerFuncRegistry) (fr : FileRegistry)
    (hfr : ∀ info, info ∈ fr.map Prod.snd → InRegistry registry info) :
    ∀ (nis : List NamedImport) (m : List (String × ServerFuncInfo)), GoodMap registry m →
      GoodMap registry (nis.foldl (fun acc ni =>
        match mapGet fr ni.name with
        | some info => mapSet acc (aliasOrName ni) info
        | none => acc) m) := by
  intro nis
  induction nis with
  | nil => intro m hm; exact hm
  | cons ni rest ih =>
    intro m hm
    rw [List.foldl_cons]
    apply ih
    cases hg : mapGet fr ni.name with
    | none => simpa [hg] using hm
    | some info =>
      simp only [hg]
      exact goodMap_mapSet registry m _ info hm
        (hfr info (List.mem_map_of_mem Prod.snd (mapGet_mem fr ni.name info hg)))

theorem goodMap_nsFold (registry : ServerFuncRegistry) (ns : String) :
    ∀ (entries : List (String × ServerFuncInfo)) (m : List (String × ServerFuncInfo)),
      (∀ e ∈ entries, InRegistry registry e.2) → GoodMap registry m →
      GoodMap registry (entries.foldl (fun acc e => mapSet acc (ns ++ "." ++ e.1) e.2) m) := by
  intro entries
  induction entries with
  | nil => intro m _ hm; exact hm
  | cons e rest ih =>
    intro m hent hm
    rw [List.foldl_cons]
    exact ih _ (fun e' he' => hent e' (List.mem_cons_of_mem _ he'))
      (goodMap_mapSet registry m _ e.2 hm (hent e (List.mem_cons_self _ _)))

theorem goodMap_getImportedServerFunctions (fsFiles : List String) (sf : SourceFile)
    (registry : ServerFuncRegistry) :
    GoodMap registry (getImportedServerFunctions fsFiles sf registry) := by
  unfold getImportedServerFunctions
  generalize sf.importDecls = decls
  have main : ∀ (l : List ImportDecl) (m : List (String × ServerFuncInfo)), GoodMap registry m →
      GoodMap registry (l.foldl (fun importedFuncs importDecl =>
        if !(strStartsWith importDecl.moduleSpecifier ".") then importedFuncs
        else
          let resolvedPath := resolveFilePath fsFiles (pathResolve (dirname sf.filePath) importDecl.moduleSpecifier)
          match mapGet registry resolvedPath with
          | none => importedFuncs
          | some fileRegistry =>
            let afterNamed := importDecl.namedImports.foldl (fun acc ni =>
              match mapGet fileRegistry ni.name with
              | some info => mapSet acc (aliasOrName ni) info
              | none => acc) importedFuncs
            match importDecl.namespaceImport with
            | some ns => fileRegistry.foldl (fun acc e => mapSet acc (ns ++ "." ++ e.1) e.2) afterNamed
            | none => afterNamed) m) := by
    intro l
    induction l with
    | nil => intro m hm; exact hm
    | cons d rest ih =>
      intro m hm
      rw [List.foldl_cons]
      apply ih
      by_cases hs : (!(strStartsWith d.moduleSpecifier ".")) = true
      · simpa [hs] using hm
      · simp only [Bool.not_eq_true] at hs
        simp only [hs]
        cases hg : mapGet registry (resolveFilePath fsFiles (pathResolve (dirname sf.filePath) d.moduleSpecifier)) with
        | none => simpa [hg] using hm
        | some fr =>
          simp only [hg]
          have hfr : ∀ info, info ∈ fr.map Prod.snd → InRegistry registry info :=
            fun info hinfo => ⟨_, fr, hg, hinfo⟩
          have hnamed := goodMap_namedFold registry fr hfr d.namedImports m hm
          cases hns : d.namespaceImport with
          | none => simpa [hns] using hnamed
          | some ns =>
            simp only [hns]
            exact goodMap_nsFold registry ns fr _
              (fun e he => ⟨_, fr, hg, List.mem_map_of_mem Prod.snd he⟩) hnamed
  exact main decls [] (goodMap_nil registry)

theorem goodMap_effectiveImportedFuncs (fsFiles : List String) (sf : SourceFile)
    (registry : ServerFuncRegistry) :
    GoodMap registry (effectiveImportedFuncs fsFiles sf registry) := by
  unfold effectiveImportedFuncs
  cases hg : mapGet registry sf.filePath with
  | none => exact goodMap_getImportedServerFunctions fsFiles sf registry
  | some fr =>
    by_cases he : fr.isEmpty
    · simpa [hg, he] using goodMap_getImportedServerFunctions fsFiles sf registry
    · simp only [hg, he]
      intro k info h
      rw [if_neg Bool.false_ne_true] at h
      exact goodMap_getImportedServerFunctions fsFiles sf registry k info
        (mapGet_deleteAll_some _ _ k info h)

/-! ### Range geometry of replacements -/

def replRange (r : Replacement) : Nat × Nat := (r.start, r.stop)

def callRange (c : CallExpr) : Nat × Nat := (c.start, c.stop)

/-- Two half-open ranges do not intersect. -/
def rangesDisjoint (a b : Nat × Nat) : Prop := a.2 ≤ b.1 ∨ b.2 ≤ a.1

def replsDisjoint (r1 r2 : Replacement) : Prop := rangesDisjoint (replRange r1) (replRange r2)

def callsDisjoint (c1 c2 : CallExpr) : Prop := rangesDisjoint (callRange c1) (callRange c2)

instance (r1 r2 : Replacement) : Decidable (replsDisjoint r1 r2) := by
  unfold replsDisjoint rangesDisjoint
  infer_instance

instance (c1 c2 : CallExpr) : Decidable (callsDisjoint c1 c2) := by
  unfold callsDisjoint rangesDisjoint
  infer_instance

theorem replForCall_range (m : List (String × ServerFuncInfo)) (c : CallExpr) (r : Replacement)
    (h : replForCall m c = some r) : replRange r = callRange c := by
  unfold replForCall at h
  cases hg : mapGet m (getCalleeFullName c) with
  | none => rw [hg] at h; cases h
  | some info =>
    rw [hg] at h
    injection h with h2
    rw [← h2]
    rfl

theorem replForHandle_range (c : CallExpr) (r : Replacement)
    (h : replForHandle c = some r) : replRange r = callRange c := by
  unfold replForHandle at h
  by_cases hc : (isFromLibrary c LIBRARY_NAME && getCalleeName c == HANDLE_NAME) = true
  · rw [if_pos hc] at h
    match hargs : c.args with
    | a0 :: a1 :: a2 :: rest => rw [hargs] at h; injection h with h2; rw [← h2]; rfl
    | [] => rw [hargs] at h; cases h
    | [a0] => rw [hargs] at h; cases h
    | [a0, a1] => rw [hargs] at h; cases h
  · rw [if_neg hc] at h; cases h

theorem replForSend_range (c : CallExpr) (r : Replacement)
    (h : replForSend c = some r) : replRange r = callRange c := by
  unfold replForSend at h
  by_cases hc : (isFromLibrary c LIBRARY_NAME && getCalleeName c == CALL_NAME) = true
  · rw [if_pos hc] at h
    match hargs : c.args with
    | a0 :: rest => rw [hargs] at h; injection h with h2; rw [← h2]; rfl
    | [] => rw [hargs] at h; cases h
  · rw [if_neg hc] at h; cases h

theorem replForFunc_range (c : CallExpr) (r : Replacement)
    (h : replForFunc c = some r) : replRange r = callRange c := by
  unfold replForFunc at h
  by_cases hc : (isFromLibrary c LIBRARY_NAME && getCalleeName c == SERVER_FUNCTION_WRAPPER_NAME) = true
  · rw [if_pos hc] at h
    match hargs : c.args with
    | [a0] => rw [hargs] at h; injection h with h2; rw [← h2]; rfl
    | [] => rw [hargs] at h; cases h
    | a0 :: a1 :: rest => rw [hargs] at h; cases h
  · rw [if_neg hc] at h; cases h

/-! ### Pairwise disjointness machinery -/

/-- The call is matched by at least one of the four rewrite rules. -/
def firesAny (m : List (String × ServerFuncInfo)) (c : CallExpr) : Prop :=
  (replForCall m c).isSome = true ∨ (replForHandle c).isSome = true ∨
    (replForSend c).isSome = true ∨ (replForFunc c).isSome = true

/-- The call is matched by at most one of the four rewrite rules. -/
def exclusiveMatch (m : List (String × ServerFuncInfo)) (c : CallExpr) : Prop :=
  ((replForCall m c).isSome = true → replForHandle c = none ∧ replForSend c = none ∧ replForFunc c = none) ∧
  ((replForHandle c).isSome = true → replForSend c = none ∧ replForFunc c = none) ∧
  ((replForSend c).isSome = true → replForFunc c = none)

instance (m : List (String × ServerFuncInfo)) (c : CallExpr) : Decidable (firesAny m c) := by
  unfold firesAny
  infer_instance

instance (m : List (String × ServerFuncInfo)) (c : CallExpr) : Decidable (exclusiveMatch m c) := by
  unfold exclusiveMatch
  infer_instance

theorem pairwise_filterMap_disj (l : List CallExpr) (f : CallExpr → Option Replacement)
    (hf : ∀ c r, f c = some r → replRange r = callRange c)
    (fires : CallExpr → Prop)
    (hfires : ∀ c, (f c).isSome = true → fires c)
    (h : l.Pairwise (fun c c' => fires c → fires c' → callsDisjoint c c')) :
    (l.filterMap f).Pairwise replsDisjoint := by
  rw [List.pairwise_filterMap]
  refine h.imp ?_
  intro a b hab x hx y hy
  have hxa : f a = some x := Option.mem_def.mp hx
  have hyb : f b = some y := Option.mem_def.mp hy
  have hd := hab (hfires a (by rw [hxa]; rfl)) (hfires b (by rw [hyb]; rfl))
  unfold replsDisjoint
  rw [hf a x hxa, hf b y hyb]
  exact hd

theorem symmetric_disj_fires (fires : CallExpr → Prop) :
    Symmetric (fun c c' : CallExpr => fires c → fires c' → callsDisjoint c c') := by
  intro c c' hcc' h1 h2
  have hd := hcc' h2 h1
  unfold callsDisjoint rangesDisjoint at hd ⊢
  exact Or.symm hd

theorem cross_filterMap_disj (l : List CallExpr) (f g : CallExpr → Option Replacement)
    (hf : ∀ c r, f c = some r → replRange r = callRange c)
    (hg : ∀ c r, g c = some r → replRange r = callRange c)
    (fires : CallExpr → Prop)
    (hff : ∀ c, (f c).isSome = true → fires c)
    (hgf : ∀ c, (g c).isSome = true → fires c)
    (hex : ∀ c ∈ l, ¬((f c).isSome = true ∧ (g c).isSome = true))
    (h : l.Pairwise (fun c c' => fires c → fires c' → callsDisjoint c c')) :
    ∀ x ∈ l.filterMap f, ∀ y ∈ l.filterMap g, replsDisjoint x y := by
  intro x hx y hy
  obtain ⟨a, ha, hfa⟩ := List.mem_filterMap.mp hx
  obtain ⟨b, hb, hgb⟩ := List.mem_filterMap.mp hy
  by_cases hab : a = b
  · subst hab
    exact absurd ⟨by rw [hfa]; rfl, by rw [hgb]; rfl⟩ (hex a ha)
  · have hr := List.Pairwise.forall (symmetric_disj_fires fires) h ha hb hab
    have hd := hr (hff a (by rw [hfa]; rfl)) (hgf b (by rw [hgb]; rfl))
    unfold replsDisjoint
    rw [hf a x hfa, hg b y hgb]
    exact hd

/-- Whether `transformSourceFile` treats the file as a server-function file. -/
def isServerFuncFile (registry : ServerFuncRegistry) (sf : SourceFile) : Bool :=
  match mapGet registry sf.filePath with
  | some fr => !fr.isEmpty
  | none => false

theorem transformReplacements_eq (fsFiles : List String) (sf : SourceFile)
    (registry : ServerFuncRegistry) (development : Bool) :
    transformReplacements fsFiles sf registry development =
      sf.callExprs.filterMap (replForCall (effectiveImportedFuncs fsFiles sf registry))
        ++ (if !development then
              sf.callExprs.filterMap replForHandle ++ sf.callExprs.filterMap replForSend
            else [])
        ++ (if isServerFuncFile registry sf && !development then
              sf.callExprs.filterMap replForFunc
            else []) := by
  unfold transformReplacements isServerFuncFile collectHandleCallReplacements
    collectSendCallReplacements collectFuncCallReplacements
  rw [collectCallSiteReplacements_eq]

/-- C1 (amended): the replacements `transformSourceFile` collects across
call-site rewriting, handle()/call() inlining and func()-wrapper stripping are
pairwise non-overlapping for every file in which (a) no two distinct calls
matched by some rewrite rule have intersecting source ranges (in particular,
no matched call is nested inside another matched call) and (b) no single call
is matched by two different rewrite rules.  Without these provisos the
invariant fails (see the counterexample with a matched call nested inside
another matched call). -/
theorem c1_nonoverlap_amended (fsFiles : List String) (sf : SourceFile)
    (registry : ServerFuncRegistry) (development : Bool)
    (hdisj : sf.callExprs.Pairwise (fun c c' =>
      firesAny (effectiveImportedFuncs fsFiles sf registry) c →
      firesAny (effectiveImportedFuncs fsFiles sf registry) c' → callsDisjoint c c'))
    (hex : ∀ c ∈ sf.callExprs, exclusiveMatch (effectiveImportedFuncs fsFiles sf registry) c) :
    (transformReplacements fsFiles sf registry development).Pairwise replsDisjoint := by
  rw [transformReplacements_eq]
  set m := effectiveImportedFuncs fsFiles sf registry with hm
  have hexCH : ∀ c ∈ sf.callExprs, ¬((replForCall m c).isSome = true ∧ (replForHandle c).isSome = true) := by
    intro c hc h12
    obtain ⟨h1, h2⟩ := h12
    rcases (hex c hc).1 h1 with ⟨hh, _, _⟩
    rw [hh] at h2
    simp at h2
  have hexCS : ∀ c ∈ sf.callExprs, ¬((replForCall m c).isSome = true ∧ (replForSend c).isSome = true) := by
    intro c hc h12
    obtain ⟨h1, h2⟩ := h12
    rcases (hex c hc).1 h1 with ⟨_, hh, _⟩
    rw [hh] at h2
    simp at h2
  have hexCF : ∀ c ∈ sf.callExprs, ¬((replForCall m c).isSome = true ∧ (replForFunc c).isSome = true) := by
    intro c hc h12
    obtain ⟨h1, h2⟩ := h12
    rcases (hex c hc).1 h1 with ⟨_, _, hh⟩
    rw [hh] at h2
    simp at h2
  have hexHS : ∀ c ∈ sf.callExprs, ¬((replForHandle c).isSome = true ∧ (replForSend c).isSome = true) := by
    intro c hc h12
    obtain ⟨h1, h2⟩ := h12
    rcases (hex c hc).2.1 h1 with ⟨hh, _⟩
    rw [hh] at h2
    simp at h2
  have hexHF : ∀ c ∈ sf.callExprs, ¬((replForHandle c).isSome = true ∧ (replForFunc c).isSome = true) := by
    intro c hc h12
    obtain ⟨h1, h2⟩ := h12
    rcases (hex c hc).2.1 h1 with ⟨_, hh⟩
    rw [hh] at h2
    simp at h2
  have hexSF : ∀ c ∈ sf.callExprs, ¬((replForSend c).isSome = true ∧ (replForFunc c).isSome = true) := by
    intro c hc h12
    obtain ⟨h1, h2⟩ := h12
    have hh := (hex c hc).2.2 h1
    rw [hh] at h2
    simp at h2
  have P1 : (sf.callExprs.filterMap (replForCall m)).Pairwise replsDisjoint :=
    pairwise_filterMap_disj _ _ (replForCall_range m) (firesAny m) (fun _ h => Or.inl h) hdisj
  have P2 : (sf.callExprs.filterMap replForHandle).Pairwise replsDisjoint :=
    pairwise_filterMap_disj _ _ replForHandle_range (firesAny m) (fun _ h => Or.inr (Or.inl h)) hdisj
  have P3 : (sf.callExprs.filterMap replForSend).Pairwise replsDisjoint :=
    pairwise_filterMap_disj _ _ replForSend_range (firesAny m) (fun _ h => Or.inr (Or.inr (Or.inl h))) hdisj
  have P4 : (sf.callExprs.filterMap replForFunc).Pairwise replsDisjoint :=
    pairwise_filterMap_disj _ _ replForFunc_range (firesAny m) (fun _ h => Or.inr (Or.inr (Or.inr h))) hdisj
  have C12 := cross_filterMap_disj sf.callExprs _ _ (replForCall_range m) replForHandle_range
    (firesAny m) (fun _ h => Or.inl h) (fun _ h => Or.inr (Or.inl h)) hexCH hdisj
  have C13 := cross_filterMap_disj sf.callExprs _ _ (replForCall_range m) replForSend_range
    (firesAny m) (fun _ h => Or.inl h) (fun _ h => Or.inr (Or.inr (Or.inl h))) hexCS hdisj
  have C14 := cross_filterMap_disj sf.callExprs _ _ (replForCall_range m) replForFunc_range
    (firesAny m) (fun _ h => Or.inl h) (fun _ h => Or.inr (Or.inr (Or.inr h))) hexCF hdisj
  have C23 := cross_filterMap_disj sf.callExprs _ _ replForHandle_range replForSend_range
    (firesAny m) (fun _ h => Or.inr (Or.inl h)) (fun _ h => Or.inr (Or.inr (Or.inl h))) hexHS hdisj
  have C24 := cross_filterMap_disj sf.callExprs _ _ replForHandle_range replForFunc_range
    (firesAny m) (fun _ h => Or.inr (Or.inl h)) (fun _ h => Or.inr (Or.inr (Or.inr h))) hexHF hdisj
  have C34 := cross_filterMap_disj sf.callExprs _ _ replForSend_range replForFunc_range
    (firesAny m) (fun _ h => Or.inr (Or.inr (Or.inl h))) (fun _ h => Or.inr (Or.inr (Or.inr h))) hexSF hdisj
  have P123 : (sf.callExprs.filterMap (replForCall m)
      ++ (sf.callExprs.filterMap replForHandle ++ sf.callExprs.filterMap replForSend)).Pairwise replsDisjoint := by
    rw [List.pairwise_append]
    refine ⟨P1, ?_, ?_⟩
    · rw [List.pairwise_append]
      exact ⟨P2, P3, C23⟩
    · intro a ha b hb
      rcases List.mem_append.mp hb with h | h
      · exact C12 a ha b h
      · exact C13 a ha b h
  cases development with
  | true =>
    simp
    exact P1
  | false =>
    simp only [Bool.not_false, if_true]
    cases hsff : isServerFuncFile registry sf with
    | false =>
      simp
      exact P123
    | true =>
      simp only [Bool.and_self, if_true]
      rw [List.pairwise_append]
      refine ⟨P123, P4, ?_⟩
      intro a ha b hb
      rcases List.mem_append.mp ha with h | h
      · exact C14 a h b hb
      · rcases List.mem_append.mp h with h' | h'
        · exact C24 a h' b hb
        · exact C34 a h' b hb

/-! ### Concrete fixtures

A small project rooted at `/proj`: a server module `/proj/server.ts` exporting
`getUser` wrapped in the `func` marker, client files importing it (aliased or
through a namespace), and a handler file calling the library `handle`. -/

/-- The `handle(id, ctx, args)` call of `sfA`, spanning offsets 34–55. -/
def handleCallA : CallExpr :=
  { calleeKind := CalleeKind.identifier, calleeText := "handle", calleeName := ""
    symbolDecls := some [{ kind := DeclKind.importSpecifier, moduleSpecifier := some "zero-com" }]
    args := [{ text := "id", kind := ArgKind.otherArg }, { text := "ctx", kind := ArgKind.otherArg },
             { text := "args", kind := ArgKind.otherArg }]
    start := 34, stop := 55 }

/-- A file whose only call is a library-imported `handle(...)` call. -/
def sfA : SourceFile :=
  { filePath := "/proj/handler.ts"
    fullText := "import { handle } from 'zero-com'\nhandle(id, ctx, args)\n"
    importDecls := [{ moduleSpecifier := "zero-com",
                      namedImports := [{ name := "handle", aliasText := none }],
                      namespaceImport := none }]
    varDecls := []
    callExprs := [handleCallA] }

/-- The `func(() => 1)` marker call of `sfB`, spanning offsets 55–68. -/
def funcCallB : CallExpr :=
  { calleeKind := CalleeKind.identifier, calleeText := "func", calleeName := ""
    symbolDecls := some [{ kind := DeclKind.importSpecifier, moduleSpecifier := some "zero-com" }]
    args := [{ text := "() => 1", kind := ArgKind.arrowFunction }]
    start := 55, stop := 68 }

/-- The exported declaration `getUser = func(() => 1)` of `sfB`, starting at
offset 45 (line 2). -/
def declB : VariableDecl :=
  { isExported := true, name := "getUser", start := 45, initializer := some (InitExpr.callInit funcCallB) }

/-- The server module defining the server function `getUser`. -/
def sfB : SourceFile :=
  { filePath := "/proj/server.ts"
    fullText := "import { func } from 'zero-com'\nexport const getUser = func(() => 1)\n"
    importDecls := [{ moduleSpecifier := "zero-com",
                      namedImports := [{ name := "func", aliasText := none }],
                      namespaceImport := none }]
    varDecls := [declB]
    callExprs := [funcCallB] }

/-- The registry entry recorded for `getUser` of `/proj/server.ts`. -/
def serverInfoGetUser : ServerFuncInfo :=
  { funcId := "getUser@server.ts:2", filePath := "/proj/server.ts", exportName := "getUser" }

/-- A project registry holding exactly the `getUser` entry of the server file. -/
def regC5 : ServerFuncRegistry := [("/proj/server.ts", [("getUser", serverInfoGetUser)])]

/-- The modelled filesystem of the `/proj` project. -/
def fsC5 : List String := ["/proj/server.ts", "/proj/client.ts"]

/-- `import { getUser as fetchUser } from './server'`. -/
def importAliased : ImportDecl :=
  { moduleSpecifier := "./server",
    namedImports := [{ name := "getUser", aliasText := some "fetchUser" }],
    namespaceImport := none }

/-- A client file with the aliased import and a given list of calls. -/
def clientFileWith (calls : List CallExpr) : SourceFile :=
  { filePath := "/proj/client.ts", fullText := "", importDecls := [importAliased],
    varDecls := [], callExprs := calls }

/-- `import * as api from './server'`. -/
def importNs : ImportDecl :=
  { moduleSpecifier := "./server", namedImports := [], namespaceImport := some "api" }

/-- A client file with the namespace import and a given list of calls. -/
def nsFileWith (calls : List CallExpr) : SourceFile :=
  { filePath := "/proj/client.ts", fullText := "", importDecls := [importNs],
    varDecls := [], callExprs := calls }

/-- The inner call of `fetchUser(fetchUser(1))`, spanning 57–69. -/
def fetchUserInner : CallExpr :=
  { calleeKind := CalleeKind.identifier, calleeText := "fetchUser", calleeName := ""
    symbolDecls := some [{ kind := DeclKind.importSpecifier, moduleSpecifier := some "./server" }]
    args := [{ text := "1", kind := ArgKind.otherArg }], start := 57, stop := 69 }

/-- The outer call of `fetchUser(fetchUser(1))`, spanning 47–70. -/
def fetchUserOuter : CallExpr :=
  { calleeKind := CalleeKind.identifier, calleeText := "fetchUser", calleeName := ""
    symbolDecls := some [{ kind := DeclKind.importSpecifier, moduleSpecifier := some "./server" }]
    args := [{ text := "fetchUser(1)", kind := ArgKind.otherArg }], start := 47, stop := 70 }

/-- A `fetchUser(1)` call spanning 40–52 (disjoint from `fetchUserSib2`). -/
def fetchUserSib1 : CallExpr :=
  { calleeKind := CalleeKind.identifier, calleeText := "fetchUser", calleeName := ""
    symbolDecls := some [{ kind := DeclKind.importSpecifier, moduleSpecifier := some "./server" }]
    args := [{ text := "1", kind := ArgKind.otherArg }], start := 40, stop := 52 }

/-- A `fetchUser(2)` call spanning 54–66 (disjoint from `fetchUserSib1`). -/
def fetchUserSib2 : CallExpr :=
  { calleeKind := CalleeKind.identifier, calleeText := "fetchUser", calleeName := ""
    symbolDecls := some [{ kind := DeclKind.importSpecifier, moduleSpecifier := some "./server" }]
    args := [{ text := "2", kind := ArgKind.otherArg }], start := 54, stop := 66 }

/-- C1 (counterexample): on a client file containing the nested matched calls
`fetchUser(fetchUser(1))`, the replacements collected by `transformSourceFile`
are the two dispatch rewrites spanning 47–70 and 57–69, whose half-open
ranges intersect — refuting the claim that collected replacements are always
pairwise non-overlapping. -/
theorem c1_nested_overlap_counterexample :
    transformReplacements fsC5 (clientFileWith [fetchUserOuter, fetchUserInner]) regC5 true =
      [{ start := 47, stop := 70,
         content := "globalThis.ZERO_COM_CLIENT_CALL('getUser@server.ts:2', [fetchUser(1)])" },
       { start := 57, stop := 69,
         content := "globalThis.ZERO_COM_CLIENT_CALL('getUser@server.ts:2', [1])" }] ∧
    ¬ replsDisjoint
        { start := 47, stop := 70,
          content := "globalThis.ZERO_COM_CLIENT_CALL('getUser@server.ts:2', [fetchUser(1)])" }
        { start := 57, stop := 69,
          content := "globalThis.ZERO_COM_CLIENT_CALL('getUser@server.ts:2', [1])" } := by
  constructor
  · rfl
  · decide

/-- C1 (witness): on a client file with two matched sibling calls at disjoint
ranges, the amended non-overlap theorem applies and yields pairwise
non-overlapping replacements. -/
theorem c1_nonoverlap_amended_witness :
    (transformReplacements fsC5 (clientFileWith [fetchUserSib1, fetchUserSib2]) regC5 false).Pairwise replsDisjoint :=
  c1_nonoverlap_amended fsC5 (clientFileWith [fetchUserSib1, fetchUserSib2]) regC5 false
    (by decide) (by decide)

/-! ### C2: id strings are byte-identical between call-site rewrite and
registration emit -/

theorem joinWith_mem (sep : String) (l : List String) (x : String) (h : x ∈ l) :
    ∃ pre post, joinWith sep l = pre ++ x ++ post := by
  induction l with
  | nil => cases h
  | cons a rest ih =>
    rcases List.mem_cons.mp h with rfl | htail
    · cases rest with
      | nil => exact ⟨"", "", by simp [joinWith]⟩
      | cons b rest2 =>
        exact ⟨"", sep ++ joinWith sep (b :: rest2), by simp [joinWith, String.append_assoc]⟩
    · cases rest with
      | nil => cases htail
      | cons b rest2 =>
        obtain ⟨pre, post, heq⟩ := ih htail
        exact ⟨a ++ sep ++ pre, post, by simp [joinWith, heq, String.append_assoc]⟩

/-- C2: whenever call-site rewriting (on the imported-functions map that
`transformSourceFile` uses) rewrites a call resolved to a server function
`info`, the rewritten content embeds `info.funcId` verbatim, and the registry
assignment that `appendRegistryCode` emits for the same function in its
defining file's registry entry embeds the very same `info.funcId` string —
the two embedded id strings are byte-identical. -/
theorem c2_funcid_byte_identical (fsFiles : List String) (sf : SourceFile)
    (registry : ServerFuncRegistry) (c : CallExpr) (r : Replacement)
    (h : replForCall (effectiveImportedFuncs fsFiles sf registry) c = some r) :
    ∃ info p fr, mapGet registry p = some fr ∧ info ∈ fr.map Prod.snd ∧
      r.content = dispatchContent info.funcId (argsTextOf c) ∧
      registrationLine info ∈ fr.map (fun e => registrationLine e.2) ∧
      (∃ pre post, r.content = pre ++ info.funcId ++ post) ∧
      (∃ pre post, registrationLine info = pre ++ info.funcId ++ post) ∧
      (∀ code, ∃ pre post, appendRegistryCode code fr = pre ++ info.funcId ++ post) := by
  unfold replForCall at h
  cases hg : mapGet (effectiveImportedFuncs fsFiles sf registry) (getCalleeFullName c) with
  | none => rw [hg] at h; cases h
  | some info =>
    rw [hg] at h
    injection h with h2
    obtain ⟨p, fr, hp, hmem⟩ := goodMap_effectiveImportedFuncs fsFiles sf registry _ info hg
    have hline : registrationLine info ∈ fr.map (fun e => registrationLine e.2) := by
      obtain ⟨e, he, hei⟩ := List.mem_map.mp hmem
      exact List.mem_map.mpr ⟨e, he, by rw [hei]⟩
    refine ⟨info, p, fr, hp, hmem, ?_, hline, ?_, ?_, ?_⟩
    · rw [← h2]
    · refine ⟨"globalThis." ++ ZERO_COM_CLIENT_CALL ++ "('", "', [" ++ argsTextOf c ++ "])", ?_⟩
      rw [← h2]
      show dispatchContent info.funcId (argsTextOf c) = _
      unfold dispatchContent
      simp [String.append_assoc]
    · refine ⟨"globalThis." ++ ZERO_COM_SERVER_REGISTRY ++ "['", "'] = " ++ info.exportName ++ ";", ?_⟩
      unfold registrationLine
      simp [String.append_assoc]
    · intro code
      obtain ⟨pre1, post1, hjoin⟩ := joinWith_mem "\n" _ _ hline
      have happ : appendRegistryCode code fr =
          code ++ "\n" ++ registryGuardLine ++ "\n" ++ (pre1 ++ registrationLine info ++ post1) := by
        unfold appendRegistryCode
        rw [hjoin]
      refine ⟨code ++ "\n" ++ registryGuardLine ++ "\n" ++ pre1 ++
        ("globalThis." ++ ZERO_COM_SERVER_REGISTRY ++ "['"),
        "'] = " ++ info.exportName ++ ";" ++ post1, ?_⟩
      rw [happ]
      unfold registrationLine
      simp [String.append_assoc]

/-- The dispatch replacement produced for `fetchUserSib1`. -/
def replSib1 : Replacement :=
  { start := 40, stop := 52,
    content := "globalThis.ZERO_COM_CLIENT_CALL('getUser@server.ts:2', [1])" }

/-- C2 (witness): on the concrete client file calling the aliased server
function, the rewritten call's id and the server file's registration id are
both `'getUser@server.ts:2'`. -/
theorem c2_funcid_byte_identical_witness :
    ∃ info p fr, mapGet regC5 p = some fr ∧ info ∈ fr.map Prod.snd ∧
      replSib1.content = dispatchContent info.funcId (argsTextOf fetchUserSib1) ∧
      registrationLine info ∈ fr.map (fun e => registrationLine e.2) ∧
      (∃ pre post, replSib1.content = pre ++ info.funcId ++ post) ∧
      (∃ pre post, registrationLine info = pre ++ info.funcId ++ post) ∧
      (∀ code, ∃ pre post, appendRegistryCode code fr = pre ++ info.funcId ++ post) :=
  c2_funcid_byte_identical fsC5 (clientFileWith [fetchUserSib1]) regC5 fetchUserSib1
    replSib1 (by decide)

/-! ### C3: what the development mode runs -/

/-- C3 (counterexample): on the server-function file `sfB`, development-mode
transformation collects zero call-site replacements, yet the output differs
from the input: registration code (component 4.5) is appended even in
development mode, refuting the claim that no rewrite other than call-site
rewriting runs during the compile pass on any file. -/
theorem c3_dev_registry_append_counterexample :
    collectCallSiteReplacements sfB (effectiveImportedFuncs fsC5 sfB regC5) = [] ∧
    (transformSourceFile fsC5 sfB regC5 { development := some true }).content ≠ sfB.fullText ∧
    (transformSourceFile fsC5 sfB regC5 { development := some true }).content =
      appendRegistryCode sfB.fullText [("getUser", serverInfoGetUser)] := by
  refine ⟨rfl, ?_, rfl⟩
  decide

/-- C3 (amended): when the development option is true the only replacements
collected are call-site rewrites — library-imported handle(), call() and
func() calls are left unchanged — but registration-code appending (component
4.5) still runs for server-function files: their development output is the
call-site-rewritten text (the unchanged text when no call site matches)
followed by the appended registry code. -/
theorem c3_dev_only_call_site_amended (fsFiles : List String) (sf : SourceFile)
    (registry : ServerFuncRegistry) :
    transformReplacements fsFiles sf registry true =
      collectCallSiteReplacements sf (effectiveImportedFuncs fsFiles sf registry) ∧
    (∀ fr, mapGet registry sf.filePath = some fr → fr.isEmpty = false →
      (transformSourceFile fsFiles sf registry { development := some true }).content =
        appendRegistryCode
          (if (collectCallSiteReplacements sf (effectiveImportedFuncs fsFiles sf registry)).isEmpty
           then sf.fullText
           else applyReplacementsWithMap sf.fullText
             (collectCallSiteReplacements sf (effectiveImportedFuncs fsFiles sf registry)))
          fr) := by
  have hrepl : transformReplacements fsFiles sf registry true =
      collectCallSiteReplacements sf (effectiveImportedFuncs fsFiles sf registry) := by
    rw [transformReplacements_eq, collectCallSiteReplacements_eq]
    simp
  refine ⟨hrepl, ?_⟩
  intro fr hfr hne
  by_cases hre : (collectCallSiteReplacements sf (effectiveImportedFuncs fsFiles sf registry)).isEmpty
  · simp [transformSourceFile, hfr, hne, hrepl, hre]
  · simp [transformSourceFile, hfr, hne, hrepl, hre]

/-- C3 (witness): the amended theorem applied to the concrete server file
`sfB` in development mode. -/
theorem c3_dev_only_call_site_amended_witness :
    (transformSourceFile fsC5 sfB regC5 { development := some true }).content =
      appendRegistryCode
        (if (collectCallSiteReplacements sfB (effectiveImportedFuncs fsC5 sfB regC5)).isEmpty
         then sfB.fullText
         else applyReplacementsWithMap sfB.fullText
           (collectCallSiteReplacements sfB (effectiveImportedFuncs fsC5 sfB regC5)))
        [("getUser", serverInfoGetUser)] :=
  (c3_dev_only_call_site_amended fsC5 sfB regC5).2 [("getUser", serverInfoGetUser)]
    (by decide) (by decide)

/-! ### C4: mode gating of handle() inlining and func() stripping -/

set_option maxRecDepth 4000 in
/-- C4: for a library-imported `handle(funcId, ctx, args)` call, development
mode collects only call-site replacements (the handle call is not rewritten),
while production mode collects the inlined dispatch-storage replacement
`globalThis.ZERO_COM_CONTEXT_STORAGE.run(ctx, () =>
globalThis.ZERO_COM_SERVER_REGISTRY[funcId](...args))` spanning the call; a
file whose imported map is empty and that has no registry entry is returned
unchanged in development mode; and in production a server-function file's
library `func(fn)` marker call is replaced by just `fn`; concretely, the
production output of the handler file inlines the dispatch-storage form and
the production output of the server file contains `() => 1` and no `func(`
marker call. -/
theorem c4_mode_gating :
    (∀ (fsFiles : List String) (sf : SourceFile) (registry : ServerFuncRegistry) (c : CallExpr)
       (a0 a1 a2 : CallArg) (rest : List CallArg),
       c ∈ sf.callExprs → isFromLibrary c LIBRARY_NAME = true → getCalleeName c = HANDLE_NAME →
       c.args = a0 :: a1 :: a2 :: rest →
       transformReplacements fsFiles sf registry true =
         collectCallSiteReplacements sf (effectiveImportedFuncs fsFiles sf registry) ∧
       ({ start := c.start, stop := c.stop,
          content := handleContent a0.text a1.text a2.text } : Replacement)
         ∈ transformReplacements fsFiles sf registry false) ∧
    (∀ (fsFiles : List String) (sf : SourceFile) (registry : ServerFuncRegistry),
       effectiveImportedFuncs fsFiles sf registry = [] → mapGet registry sf.filePath = none →
       transformSourceFile fsFiles sf registry { development := some true } =
         { content := sf.fullText, transformed := false }) ∧
    (∀ (fsFiles : List String) (sf : SourceFile) (registry : ServerFuncRegistry)
       (fr : FileRegistry) (c : CallExpr) (a0 : CallArg),
       mapGet registry sf.filePath = some fr → fr.isEmpty = false →
       c ∈ sf.callExprs → isFromLibrary c LIBRARY_NAME = true →
       getCalleeName c = SERVER_FUNCTION_WRAPPER_NAME → c.args = [a0] →
       ({ start := c.start, stop := c.stop, content := a0.text } : Replacement)
         ∈ transformReplacements fsFiles sf registry false) ∧
    ((transformSourceFile [] sfA [] { development := some false }).content =
       "import { handle } from 'zero-com'\nglobalThis.ZERO_COM_CONTEXT_STORAGE.run(ctx, () => globalThis.ZERO_COM_SERVER_REGISTRY[id](...args))\n" ∧
     (transformSourceFile fsC5 sfB regC5 { development := some false }).content =
       "import { func } from 'zero-com'\nexport const getUser = () => 1\n\nif (!globalThis.ZERO_COM_SERVER_REGISTRY) globalThis.ZERO_COM_SERVER_REGISTRY = Object.create(null);\nglobalThis.ZERO_COM_SERVER_REGISTRY['getUser@server.ts:2'] = getUser;" ∧
     ¬ "func(".data <:+:
       (transformSourceFile fsC5 sfB regC5 { development := some false }).content.data) := by
  refine ⟨?_, ?_, ?_, by refine ⟨by decide, by decide, by decide⟩⟩
  · intro fsFiles sf registry c a0 a1 a2 rest hc hlib hname hargs
    constructor
    · rw [transformReplacements_eq, collectCallSiteReplacements_eq]
      simp
    · rw [transformReplacements_eq]
      have hrepl : replForHandle c =
          some { start := c.start, stop := c.stop, content := handleContent a0.text a1.text a2.text } := by
        unfold replForHandle
        rw [if_pos (by simp [hlib, hname]), hargs]
      refine List.mem_append.mpr (Or.inl (List.mem_append.mpr (Or.inr ?_)))
      simp only [Bool.not_false, if_true]
      exact List.mem_append.mpr (Or.inl (List.mem_filterMap.mpr ⟨c, hc, hrepl⟩))
  · intro fsFiles sf registry himp hnone
    have h1 : transformReplacements fsFiles sf registry true = [] := by
      rw [transformReplacements_eq, himp]
      simp only [Bool.not_true, Bool.and_false]
      simp
      exact fun a _ => rfl
    unfold transformSourceFile
    simp [hnone, h1]
  · intro fsFiles sf registry fr c a0 hfr hne hc hlib hname hargs
    rw [transformReplacements_eq]
    have hsff : isServerFuncFile registry sf = true := by
      unfold isServerFuncFile
      rw [hfr]
      simp [hne]
    have hrepl : replForFunc c =
        some { start := c.start, stop := c.stop, content := a0.text } := by
      unfold replForFunc
      rw [if_pos (by simp [hlib, hname]), hargs]
    refine List.mem_append.mpr (Or.inr ?_)
    rw [hsff]
    simp only [Bool.not_false, Bool.and_true, if_true]
    exact List.mem_filterMap.mpr ⟨c, hc, hrepl⟩

/-- C4 (witness): the concrete handler file `sfA` is unchanged in development
mode, its `handle(id, ctx, args)` call is inlined in production mode, and the
server file `sfB`'s `func(() => 1)` wrapper is stripped to `() => 1` in
production mode. -/
theorem c4_mode_gating_witness :
    (({ start := 34, stop := 55, content := handleContent "id" "ctx" "args" } : Replacement)
       ∈ transformReplacements [] sfA [] false) ∧
    transformSourceFile [] sfA [] { development := some true } =
      { content := sfA.fullText, transformed := false } ∧
    ({ start := 55, stop := 68, content := "() => 1" } : Replacement)
      ∈ transformReplacements fsC5 sfB regC5 false := by
  refine ⟨?_, ?_, ?_⟩
  · exact (c4_mode_gating.1 [] sfA [] handleCallA
      { text := "id", kind := ArgKind.otherArg } { text := "ctx", kind := ArgKind.otherArg }
      { text := "args", kind := ArgKind.otherArg } []
      (by decide) (by decide) (by decide) (by decide)).2
  · exact c4_mode_gating.2.1 [] sfA [] (by decide) (by decide)
  · exact c4_mode_gating.2.2.1 fsC5 sfB regC5 [("getUser", serverInfoGetUser)] funcCallB
      { text := "() => 1", kind := ArgKind.arrowFunction }
      (by decide) (by decide) (by decide) (by decide) (by decide) (by decide)

/-! ### C5 and C6: aliased and namespace imports -/

/-- C5: in a client file importing `getUser` as `fetchUser` from the server
module, the imported-functions map binds exactly the alias `fetchUser` to
`getUser`'s info, and call-site rewriting rewrites exactly the calls whose
callee text is `fetchUser` — carrying `getUser`'s funcId — while calls
written `getUser(...)` (or anything else) are not rewritten. -/
theorem c5_alias_rewrite (calls : List CallExpr) :
    getImportedServerFunctions fsC5 (clientFileWith calls) regC5 =
      [("fetchUser", serverInfoGetUser)] ∧
    collectCallSiteReplacements (clientFileWith calls)
        (getImportedServerFunctions fsC5 (clientFileWith calls) regC5) =
      calls.filterMap (fun c =>
        if getCalleeFullName c = "fetchUser" then
          some { start := c.start, stop := c.stop,
                 content := dispatchContent serverInfoGetUser.funcId (argsTextOf c) }
        else none) := by
  have h1 : getImportedServerFunctions fsC5 (clientFileWith calls) regC5 =
      [("fetchUser", serverInfoGetUser)] := by rfl
  refine ⟨h1, ?_⟩
  rw [collectCallSiteReplacements_eq, h1]
  have hf : replForCall [("fetchUser", serverInfoGetUser)] =
      (fun c => if getCalleeFullName c = "fetchUser" then
          some { start := c.start, stop := c.stop,
                 content := dispatchContent serverInfoGetUser.funcId (argsTextOf c) }
        else none) := by
    funext c
    unfold replForCall
    rw [mapGet_cons]
    by_cases h : "fetchUser" = getCalleeFullName c
    · rw [if_pos h, if_pos h.symm]
    · rw [if_neg h, if_neg (fun hh => h hh.symm)]
      rfl
  rw [hf]
  rfl

/-- A namespace call `api.getUser(x)` spanning 10–24. -/
def apiGetUserCall : CallExpr :=
  { calleeKind := CalleeKind.propertyAccess, calleeText := "api.getUser", calleeName := "getUser"
    symbolDecls := none, args := [{ text := "x", kind := ArgKind.otherArg }], start := 10, stop := 24 }

/-- A namespace call `api.helper(x)` to a non-server export, spanning 30–43. -/
def apiHelperCall : CallExpr :=
  { calleeKind := CalleeKind.propertyAccess, calleeText := "api.helper", calleeName := "helper"
    symbolDecls := none, args := [{ text := "x", kind := ArgKind.otherArg }], start := 30, stop := 43 }

/-- C6: in a client file with `import * as api from './server'`, the
imported-functions map binds exactly `api.getUser` to `getUser`'s info;
call-site rewriting rewrites exactly the calls printed `api.getUser(...)`
with `getUser`'s funcId; concretely `api.getUser(x)` becomes a dispatch call
with argument list `[x]` while `api.helper(x)` — an export of the same file
with no registry entry — produces no replacement. -/
theorem c6_namespace_rewrite (calls : List CallExpr) :
    getImportedServerFunctions fsC5 (nsFileWith calls) regC5 =
      [("api.getUser", serverInfoGetUser)] ∧
    collectCallSiteReplacements (nsFileWith calls)
        (getImportedServerFunctions fsC5 (nsFileWith calls) regC5) =
      calls.filterMap (fun c =>
        if getCalleeFullName c = "api.getUser" then
          some { start := c.start, stop := c.stop,
                 content := dispatchContent serverInfoGetUser.funcId (argsTextOf c) }
        else none) ∧
    replForCall [("api.getUser", serverInfoGetUser)] apiGetUserCall =
      some { start := 10, stop := 24,
             content := "globalThis.ZERO_COM_CLIENT_CALL('getUser@server.ts:2', [x])" } ∧
    replForCall [("api.getUser", serverInfoGetUser)] apiHelperCall = none := by
  have h1 : getImportedServerFunctions fsC5 (nsFileWith calls) regC5 =
      [("api.getUser", serverInfoGetUser)] := by rfl
  refine ⟨h1, ?_, by decide, by decide⟩
  rw [collectCallSiteReplacements_eq, h1]
  have hf : replForCall [("api.getUser", serverInfoGetUser)] =
      (fun c => if getCalleeFullName c = "api.getUser" then
          some { start := c.start, stop := c.stop,
                 content := dispatchContent serverInfoGetUser.funcId (argsTextOf c) }
        else none) := by
    funext c
    unfold replForCall
    rw [mapGet_cons]
    by_cases h : "api.getUser" = getCalleeFullName c
    · rw [if_pos h, if_pos h.symm]
    · rw [if_neg h, if_neg (fun hh => h hh.symm)]
      rfl
  rw [hf]
  rfl

/-! ### C7: local self-calls are not rewritten -/

/-- C7: for a server-function file (one with a non-empty registry entry),
every local name recorded in the file's own registry entry is removed from
the imported-functions map before call-site rewriting, so a local call to
the file's own server function produces no dispatch replacement. -/
theorem c7_local_call_not_rewritten (fsFiles : List String) (sf : SourceFile)
    (registry : ServerFuncRegistry) (fr : FileRegistry)
    (hfr : mapGet registry sf.filePath = some fr) (hne : fr.isEmpty = false) :
    (∀ nm, nm ∈ fr.map Prod.fst →
      mapGet (effectiveImportedFuncs fsFiles sf registry) nm = none) ∧
    (∀ c, c ∈ sf.callExprs → getCalleeFullName c ∈ fr.map Prod.fst →
      replForCall (effectiveImportedFuncs fsFiles sf registry) c = none) ∧
    collectCallSiteReplacements sf (effectiveImportedFuncs fsFiles sf registry) =
      sf.callExprs.filterMap (replForCall (effectiveImportedFuncs fsFiles sf registry)) := by
  have heff : effectiveImportedFuncs fsFiles sf registry =
      deleteAll (fr.map Prod.fst) (getImportedServerFunctions fsFiles sf registry) := by
    unfold effectiveImportedFuncs
    rw [hfr]
    simp [hne]
  have hnone : ∀ nm, nm ∈ fr.map Prod.fst →
      mapGet (effectiveImportedFuncs fsFiles sf registry) nm = none := by
    intro nm hnm
    rw [heff]
    exact mapGet_deleteAll_of_mem _ _ nm hnm
  refine ⟨hnone, ?_, collectCallSiteReplacements_eq sf _⟩
  intro c hc hname
  unfold replForCall
  rw [hnone _ hname]

/-- A local call `getUser(1)` inside the defining server file, spanning
100–110. -/
def selfCall : CallExpr :=
  { calleeKind := CalleeKind.identifier, calleeText := "getUser", calleeName := ""
    symbolDecls := some [{ kind := DeclKind.importSpecifier, moduleSpecifier := some "./server" }]
    args := [{ text := "1", kind := ArgKind.otherArg }], start := 100, stop := 110 }

/-- The server file importing its own export (so the imported map would bind
`getUser`) and calling it locally. -/
def sfSelf : SourceFile :=
  { filePath := "/proj/server.ts"
    fullText := ""
    importDecls := [{ moduleSpecifier := "./server",
                      namedImports := [{ name := "getUser", aliasText := none }],
                      namespaceImport := none }]
    varDecls := []
    callExprs := [selfCall] }

/-- C7 (witness): in the concrete self-calling server file, `getUser` is
absent from the effective imported map and its local call yields no dispatch
replacement. -/
theorem c7_local_call_not_rewritten_witness :
    mapGet (effectiveImportedFuncs fsC5 sfSelf regC5) "getUser" = none ∧
    replForCall (effectiveImportedFuncs fsC5 sfSelf regC5) selfCall = none := by
  refine ⟨?_, ?_⟩
  · exact (c7_local_call_not_rewritten fsC5 sfSelf regC5 [("getUser", serverInfoGetUser)]
      (by rfl) (by rfl)).1 "getUser" (by decide)
  · exact (c7_local_call_not_rewritten fsC5 sfSelf regC5 [("getUser", serverInfoGetUser)]
      (by rfl) (by rfl)).2.1 selfCall (by decide) (by decide)

/-! ### C8: the registry scan -/

theorem scan_fold_forward (sf : SourceFile) (contextDir : String) :
    ∀ (l : List VariableDecl) (acc : FileRegistry) (e : String × ServerFuncInfo),
      e ∈ l.foldl (scanStep sf contextDir) acc →
      e ∈ acc ∨ ∃ d, d ∈ l ∧ declMatches d = true ∧ e.1 = d.name ∧
        e.2 = mkServerFuncInfo sf contextDir d := by
  intro l
  induction l with
  | nil => intro acc e he; exact Or.inl he
  | cons d rest ih =>
    intro acc e he
    rw [List.foldl_cons] at he
    rcases ih _ e he with h | ⟨d', hd', hm, hn, hv⟩
    · unfold scanStep at h
      by_cases hm : declMatches d = true
      · rw [if_pos hm] at h
        rcases mem_mapSet _ _ _ _ h with h' | h'
        · right; exact ⟨d, List.mem_cons_self _ _, hm, by rw [h'], by rw [h']⟩
        · exact Or.inl h'
      · rw [if_neg hm] at h; exact Or.inl h
    · right; exact ⟨d', List.mem_cons_of_mem _ hd', hm, hn, hv⟩

theorem scan_fold_persist (sf : SourceFile) (contextDir : String) :
    ∀ (l : List VariableDecl) (acc : FileRegistry) (k : String),
      (mapGet acc k).isSome = true →
      (mapGet (l.foldl (scanStep sf contextDir) acc) k).isSome = true := by
  intro l
  induction l with
  | nil => intro acc k h; exact h
  | cons d rest ih =>
    intro acc k h
    rw [List.foldl_cons]
    apply ih
    unfold scanStep
    by_cases hm : declMatches d = true
    · rw [if_pos hm, mapGet_mapSet]
      by_cases hk : d.name = k
      · rw [if_pos hk]; rfl
      · rw [if_neg hk]; exact h
    · rw [if_neg hm]; exact h

theorem scan_fold_reaches (sf : SourceFile) (contextDir : String) :
    ∀ (l : List VariableDecl) (acc : FileRegistry) (d : VariableDecl),
      d ∈ l → declMatches d = true →
      (mapGet (l.foldl (scanStep sf contextDir) acc) d.name).isSome = true := by
  intro l
  induction l with
  | nil => intro acc d hd; cases hd
  | cons d0 rest ih =>
    intro acc d hd hm
    rw [List.foldl_cons]
    rcases List.mem_cons.mp hd with rfl | htail
    · apply scan_fold_persist
      unfold scanStep
      rw [if_pos hm, mapGet_mapSet, if_pos rfl]
      rfl
    · exact ih _ d htail hm

/-- Modelled from the spec: the spec's "function literal" covers both arrow
functions and anonymous function expressions. -/
def isFunctionLiteralKind : ArgKind → Bool
  | ArgKind.arrowFunction => true
  | ArgKind.functionExpression => true
  | ArgKind.otherArg => false

/-- Modelled from the spec: the recording criterion as the spec words it —
an exported declaration whose initializer is a library marker call with
exactly one argument that is a function literal. -/
def declMatchesSpec (decl : VariableDecl) : Bool :=
  decl.isExported &&
  (match decl.initializer with
   | some (InitExpr.callInit c) =>
     isFromLibrary c LIBRARY_NAME &&
     markerNameMatches c.calleeText &&
     (match c.args with
      | [a] => isFunctionLiteralKind a.kind
      | _ => false)
   | _ => false)

/-- The marker call `func(function () { return 1 })` whose single argument is
a function expression (a function literal that is not an arrow function). -/
def funcExprCallC8 : CallExpr :=
  { calleeKind := CalleeKind.identifier, calleeText := "func", calleeName := ""
    symbolDecls := some [{ kind := DeclKind.importSpecifier, moduleSpecifier := some "zero-com" }]
    args := [{ text := "function () { return 1 }", kind := ArgKind.functionExpression }]
    start := 49, stop := 79 }

/-- The exported declaration `g = func(function () { return 1 })`. -/
def declC8 : VariableDecl :=
  { isExported := true, name := "g", start := 45, initializer := some (InitExpr.callInit funcExprCallC8) }

/-- A file with an exported marker declaration whose single argument is a
function expression. -/
def sfC8 : SourceFile :=
  { filePath := "/proj/api.ts"
    fullText := "import { func } from 'zero-com'\nexport const g = func(function () { return 1 })\n"
    importDecls := [{ moduleSpecifier := "zero-com",
                      namedImports := [{ name := "func", aliasText := none }],
                      namespaceImport := none }]
    varDecls := [declC8]
    callExprs := [funcExprCallC8] }

/-- C8 (counterexample): the exported declaration `g = func(function () {
return 1 })` satisfies the claim's recording criterion — its single marker
argument is a function literal — yet the scan records nothing, because the
code accepts only `ArrowFunction` arguments. -/
theorem c8_function_expression_counterexample :
    declMatchesSpec declC8 = true ∧
    scanFileRegistry sfC8 "/proj" = [] ∧
    declMatches declC8 = false := by
  refine ⟨by decide, by decide, by decide⟩

/-- C8 (amended): the scan records a `ServerFuncInfo` exactly for the
exported variable declarations whose initializer is a marker call resolved to
the library with exactly one argument that is an arrow function (not any
function literal); non-exported declarations and marker calls with a
different argument shape are silently excluded, and each recorded funcId is
exactly `<exportedName>@<path-relative-to-project-root>:<one-based start
line>`. -/
theorem c8_registry_scan_amended (sf : SourceFile) (contextDir : String) :
    (∀ name info, (name, info) ∈ scanFileRegistry sf contextDir →
      ∃ d, d ∈ sf.varDecls ∧ declMatches d = true ∧ name = d.name ∧
        info = mkServerFuncInfo sf contextDir d ∧
        info.funcId = formatFuncIdName d.name (pathRelative contextDir sf.filePath)
          (lineOfOffset sf.fullText d.start)) ∧
    (∀ d, d ∈ sf.varDecls → declMatches d = true →
      ∃ info, mapGet (scanFileRegistry sf contextDir) d.name = some info ∧
        ∃ d', d' ∈ sf.varDecls ∧ declMatches d' = true ∧ d'.name = d.name ∧
          info = mkServerFuncInfo sf contextDir d') := by
  constructor
  · intro name info he
    rcases scan_fold_forward sf contextDir sf.varDecls [] (name, info) he with h | ⟨d, hd, hm, hn, hv⟩
    · cases h
    · have hn2 : name = d.name := hn
      have hv2 : info = mkServerFuncInfo sf contextDir d := hv
      exact ⟨d, hd, hm, hn2, hv2, by rw [hv2]; rfl⟩
  · intro d hd hm
    have hs : (mapGet (scanFileRegistry sf contextDir) d.name).isSome = true :=
      scan_fold_reaches sf contextDir sf.varDecls [] d hd hm
    cases hv : mapGet (scanFileRegistry sf contextDir) d.name with
    | none => rw [hv] at hs; simp at hs
    | some info =>
      refine ⟨info, rfl, ?_⟩
      have hmem := mapGet_mem _ _ _ hv
      rcases scan_fold_forward sf contextDir sf.varDecls [] (d.name, info) hmem with h | ⟨d', hd', hm', hn', hv'⟩
      · cases h
      · exact ⟨d', hd', hm', hn'.symm, hv'⟩

/-- C8 (witness): the amended theorem applied to the concrete server file
`sfB` records `getUser` with id `getUser@server.ts:2`. -/
theorem c8_registry_scan_amended_witness :
    ∃ info, mapGet (scanFileRegistry sfB "/proj") "getUser" = some info ∧
      ∃ d', d' ∈ sfB.varDecls ∧ declMatches d' = true ∧ d'.name = "getUser" ∧
        info = mkServerFuncInfo sfB "/proj" d' :=
  (c8_registry_scan_amended sfB "/proj").2 declB (by decide) (by decide)

/-! ### C9: shape and argument fidelity of rewritten call sites -/

/-- C9: every rewritten call site's replacement spans exactly the original
call expression, its content is exactly
`globalThis.ZERO_COM_CLIENT_CALL('<funcId>', [<args>])` where `<args>` joins
the original argument texts verbatim and in order with `', '`, every
replacement produced has this shape, and a call with zero arguments yields
the empty argument list `[]`. -/
theorem c9_replacement_shape (sf : SourceFile) (m : List (String × ServerFuncInfo)) :
    (∀ c info, c ∈ sf.callExprs → mapGet m (getCalleeFullName c) = some info →
      ({ start := c.start, stop := c.stop,
         content := dispatchContent info.funcId (joinWith ", " (c.args.map CallArg.text)) } : Replacement)
        ∈ collectCallSiteReplacements sf m) ∧
    (∀ r, r ∈ collectCallSiteReplacements sf m →
      ∃ c info, c ∈ sf.callExprs ∧ mapGet m (getCalleeFullName c) = some info ∧
        r.start = c.start ∧ r.stop = c.stop ∧
        r.content = dispatchContent info.funcId (joinWith ", " (c.args.map CallArg.text))) ∧
    (∀ funcId, dispatchContent funcId (joinWith ", " ([] : List String)) =
      "globalThis." ++ ZERO_COM_CLIENT_CALL ++ "('" ++ funcId ++ "', [])") := by
  refine ⟨?_, ?_, ?_⟩
  · intro c info hc hg
    rw [collectCallSiteReplacements_eq]
    refine List.mem_filterMap.mpr ⟨c, hc, ?_⟩
    unfold replForCall argsTextOf
    rw [hg]
  · intro r hr
    rw [collectCallSiteReplacements_eq] at hr
    obtain ⟨c, hc, hf⟩ := List.mem_filterMap.mp hr
    unfold replForCall argsTextOf at hf
    cases hg : mapGet m (getCalleeFullName c) with
    | none => rw [hg] at hf; cases hf
    | some info =>
      rw [hg] at hf
      injection hf with h2
      exact ⟨c, info, hc, hg, by rw [← h2], by rw [← h2], by rw [← h2]⟩
  · intro funcId
    show "globalThis." ++ ZERO_COM_CLIENT_CALL ++ "('" ++ funcId ++ "', [" ++
        joinWith ", " [] ++ "])" = _
    rw [show joinWith ", " ([] : List String) = "" from rfl, String.append_empty,
      String.append_assoc]
    rfl

/-- A zero-argument call `fetchUser()` spanning 10–21. -/
def zeroArgCall : CallExpr :=
  { calleeKind := CalleeKind.identifier, calleeText := "fetchUser", calleeName := ""
    symbolDecls := none, args := [], start := 10, stop := 21 }

/-- A file whose only call is the zero-argument `fetchUser()`. -/
def sfZero : SourceFile :=
  { filePath := "/proj/z.ts", fullText := "", importDecls := [], varDecls := [],
    callExprs := [zeroArgCall] }

/-- C9 (witness): the zero-argument call is rewritten with the empty argument
list, and the dispatch content for the empty list ends in `[]`. -/
theorem c9_replacement_shape_witness :
    ({ start := 10, stop := 21,
       content := dispatchContent serverInfoGetUser.funcId (joinWith ", " ([] : List String)) } : Replacement)
      ∈ collectCallSiteReplacements sfZero [("fetchUser", serverInfoGetUser)] ∧
    dispatchContent "getUser@server.ts:2" (joinWith ", " ([] : List String)) =
      "globalThis." ++ ZERO_COM_CLIENT_CALL ++ "('" ++ "getUser@server.ts:2" ++ "', [])" := by
  constructor
  · exact (c9_replacement_shape sfZero [("fetchUser", serverInfoGetUser)]).1 zeroArgCall
      serverInfoGetUser (by decide) (by decide)
  · exact (c9_replacement_shape sfZero [("fetchUser", serverInfoGetUser)]).2.2 "getUser@server.ts:2"

/-! ### C10: matching is purely textual -/

/-- Two call expressions that print identically and sit at the same offsets,
regardless of what their callee symbols resolve to. -/
def sameShape (c c' : CallExpr) : Prop :=
  c.calleeKind = c'.calleeKind ∧ c.calleeText = c'.calleeText ∧ c.calleeName = c'.calleeName ∧
  c.args = c'.args ∧ c.start = c'.start ∧ c.stop = c'.stop

theorem replForCall_shape (m : List (String × ServerFuncInfo)) (c c' : CallExpr)
    (h : sameShape c c') : replForCall m c = replForCall m c' := by
  obtain ⟨h1, h2, _, h4, h5, h6⟩ := h
  unfold replForCall getCalleeFullName argsTextOf
  rw [h1, h2, h4, h5, h6]

/-- C10: call-site matching is purely textual, with no symbol resolution: the
collected call-site replacements depend only on the printed shape of each
call (callee kind and text, argument texts, offsets) and not on the callee's
resolved symbol declarations, and every call whose callee full text is a key
of the map is rewritten whatever its provenance — including a call through a
local binding that merely shares an imported name, or a property access whose
printed text coincides with a `namespace.name` key. -/
theorem c10_textual_matching :
    (∀ (m : List (String × ServerFuncInfo)) (sf sf' : SourceFile),
      List.Forall₂ sameShape sf.callExprs sf'.callExprs →
      collectCallSiteReplacements sf m = collectCallSiteReplacements sf' m) ∧
    (∀ (sf : SourceFile) (m : List (String × ServerFuncInfo)) (ck : CalleeKind) (ct cn : String)
       (sd : Option (List SymbolDecl)) (args : List CallArg) (s e : Nat) (info : ServerFuncInfo),
      (CallExpr.mk ck ct cn sd args s e) ∈ sf.callExprs →
      mapGet m (getCalleeFullName (CallExpr.mk ck ct cn sd args s e)) = some info →
      ({ start := s, stop := e,
         content := dispatchContent info.funcId (argsTextOf (CallExpr.mk ck ct cn sd args s e)) } : Replacement)
        ∈ collectCallSiteReplacements sf m) := by
  constructor
  · intro m sf sf' hshape
    rw [collectCallSiteReplacements_eq, collectCallSiteReplacements_eq]
    have main : ∀ (l l' : List CallExpr), List.Forall₂ sameShape l l' →
        l.filterMap (replForCall m) = l'.filterMap (replForCall m) := by
      intro l l' hll
      induction hll with
      | nil => rfl
      | cons hab _ ih =>
        rw [List.filterMap_cons, List.filterMap_cons, ih, replForCall_shape m _ _ hab]
    exact main _ _ hshape
  · intro sf m ck ct cn sd args s e info hc hg
    rw [collectCallSiteReplacements_eq]
    refine List.mem_filterMap.mpr ⟨_, hc, ?_⟩
    unfold replForCall
    rw [hg]

/-- A call printed `fetchUser(1)` whose callee symbol resolves to a plain
local declaration (a shadowing binding, not an import). -/
def shadowCall : CallExpr :=
  { calleeKind := CalleeKind.identifier, calleeText := "fetchUser", calleeName := ""
    symbolDecls := some [{ kind := DeclKind.otherDecl, moduleSpecifier := none }]
    args := [{ text := "1", kind := ArgKind.otherArg }], start := 40, stop := 52 }

/-- A file whose only call is the shadowed `fetchUser(1)`. -/
def sfShadow : SourceFile :=
  { filePath := "/proj/shadow.ts", fullText := "", importDecls := [], varDecls := [],
    callExprs := [shadowCall] }

/-- The same file shape but with import provenance on the call. -/
def sfShadowImp : SourceFile :=
  { filePath := "/proj/shadow.ts", fullText := "", importDecls := [], varDecls := [],
    callExprs := [fetchUserSib1] }

/-- C10 (witness): the shadowed call and the imported call produce identical
replacement lists, and the shadowed `fetchUser(1)` is itself rewritten. -/
theorem c10_textual_matching_witness :
    collectCallSiteReplacements sfShadow [("fetchUser", serverInfoGetUser)] =
      collectCallSiteReplacements sfShadowImp [("fetchUser", serverInfoGetUser)] ∧
    ({ start := 40, stop := 52,
       content := dispatchContent serverInfoGetUser.funcId (argsTextOf shadowCall) } : Replacement)
      ∈ collectCallSiteReplacements sfShadow [("fetchUser", serverInfoGetUser)] := by
  constructor
  · exact c10_textual_matching.1 [("fetchUser", serverInfoGetUser)] sfShadow sfShadowImp
      (List.Forall₂.cons (by unfold sameShape; exact ⟨rfl, rfl, rfl, rfl, rfl, rfl⟩)
        List.Forall₂.nil)
  · exact c10_textual_matching.2 sfShadow [("fetchUser", serverInfoGetUser)]
      CalleeKind.identifier "fetchUser" ""
      (some [{ kind := DeclKind.otherDecl, moduleSpecifier := none }])
      [{ text := "1", kind := ArgKind.otherArg }] 40 52 serverInfoGetUser
      (by decide) (by decide)

end ZeroCom
